import Mathlib

/-!
# Verification of the evolai autonomous mutation pipeline

Shallow embedding of the security sandbox (`src/security/sandbox.ts`), the
content/code safety filter (`src/security/filter.ts`), the version ledger
(`src/self-improvement/versioning.ts`), the auto-implementer and self-updater
(`src/self-improvement`, unnamed part), and the hot patcher
(`src/self-improvement/hot-patch.ts`).

Strings are modelled as Lean `String`; the JavaScript regular expressions used
by the filter are embedded via a small backtracking matcher (`Re`, `reMatch`)
that mirrors the semantics the code relies on: leftmost match, greedy
quantifiers, alternation tried left to right, ASCII-level case folding for the
`i` flag, and `\b` word boundaries.  Filesystem state is an association list
from absolute path to file content; external tools (git, npm) appear as
explicit result oracles.
-/

set_option autoImplicit false

/-- Character used for a single quote, kept out of literals for clarity. -/
def squote : Char := Char.ofNat 39

/-- Character used for a double quote. -/
def dquote : Char := Char.ofNat 34

/-- Character used for a backslash. -/
def bslash : Char := Char.ofNat 92

/-- Boolean prefix test on character lists. -/
def listPre : List Char → List Char → Bool
  | [], _ => true
  | _ :: _, [] => false
  | a :: as, b :: bs => a == b && listPre as bs

/-- Substring containment on character lists (JavaScript `String.includes`). -/
def listContains (sub : List Char) : List Char → Bool
  | [] => listPre sub []
  | c :: t => listPre sub (c :: t) || listContains sub t

/-- `s.startsWith pre` for our string model. -/
def strStartsWith (s pre : String) : Bool := listPre pre.data s.data

/-- `s.endsWith suf` for our string model. -/
def strEndsWith (s suf : String) : Bool := listPre suf.data.reverse s.data.reverse

/-- `s.includes sub` for our string model. -/
def strContains (s sub : String) : Bool := listContains sub.data s.data

/-- Replace the first occurrence of `pat` (a plain string, JavaScript
`String.replace` with a string argument). -/
def replaceFirstL (pat rep : List Char) : List Char → List Char
  | [] => if pat.isEmpty then rep else []
  | c :: t =>
    if listPre pat (c :: t) then rep ++ (c :: t).drop pat.length
    else c :: replaceFirstL pat rep t

/-- String-level first-occurrence replacement. -/
def replaceFirst (s pat rep : String) : String :=
  String.mk (replaceFirstL pat.data rep.data s.data)

/-- Replace every occurrence of character `c` by `d` (used for the
`replace(/[:.]/g, "-")` timestamp mangling and `replace(/"/g, ...)`). -/
def replaceChars (p : Char → Bool) (d : List Char) (s : String) : String :=
  String.mk (s.data.foldr (fun c acc => if p c then d ++ acc else c :: acc) [])

/-- Split a character list at a separator character. -/
def splitOnCharL (sep : Char) : List Char → List (List Char)
  | [] => [[]]
  | c :: cs =>
    if c = sep then [] :: splitOnCharL sep cs
    else
      match splitOnCharL sep cs with
      | [] => [[c]]
      | h :: t => (c :: h) :: t

/-- Split a string at a separator character (JavaScript `String.split`). -/
def splitOnChar (sep : Char) (s : String) : List String :=
  (splitOnCharL sep s.data).map String.mk

/-- JavaScript `String.trim` (whitespace from both ends). -/
def strTrim (s : String) : String :=
  String.mk (((s.data.dropWhile Char.isWhitespace).reverse.dropWhile Char.isWhitespace).reverse)

/-- JavaScript `\w` character class. -/
def isWordChar (c : Char) : Bool := c.isAlpha || c.isDigit || c = '_'

/-- ASCII-insensitive character comparison for the regex `i` flag. -/
def charCI (a b : Char) : Bool := a.toLower == b.toLower

/-- JavaScript `String.toLowerCase` (ASCII). -/
def strToLower (s : String) : String := String.mk (s.data.map Char.toLower)

/-- JavaScript `Array.join(sep)`. -/
def joinWith (sep : String) : List String → String
  | [] => ""
  | [x] => x
  | x :: xs => x ++ sep ++ joinWith sep xs

/-! ## A small backtracking regex engine

Only the combinators the filter's patterns need: character classes, sequence,
alternation, greedy star, and `\b`.  `reMatch` is a continuation-passing
matcher with the exact preference order of a JavaScript backtracking engine:
alternatives left to right, quantifiers longest first.  A fuel argument keeps
the definition structural; the fuel supplied by `reSearch` always suffices. -/

inductive Re where
  | eps : Re
  | cls : (Char → Bool) → Re
  | seq : Re → Re → Re
  | alt : Re → Re → Re
  | star : Re → Re
  | wb : Re

/-- Node count, used to compute a sufficient fuel bound. -/
def reSize : Re → Nat
  | .eps => 1
  | .cls _ => 1
  | .seq a b => reSize a + reSize b + 1
  | .alt a b => reSize a + reSize b + 1
  | .star a => reSize a + 1
  | .wb => 1

/-- Backtracking matcher.  `prev` is the character just before the current
position (for `\b`); the continuation receives the updated `prev` and the
remaining input.  Returns the first success in greedy preference order. -/
def reMatch : Nat → Re → Option Char → List Char →
    (Option Char → List Char → Option (List Char)) → Option (List Char)
  | 0, _, _, _, _ => none
  | _ + 1, .eps, prev, s, k => k prev s
  | _ + 1, .cls p, _, s, k =>
    match s with
    | [] => none
    | c :: cs => if p c then k (some c) cs else none
  | _ + 1, .wb, prev, s, k =>
    let before := match prev with | some c => isWordChar c | none => false
    let after := match s with | c :: _ => isWordChar c | [] => false
    if before != after then k prev s else none
  | fuel + 1, .seq a b, prev, s, k =>
    reMatch fuel a prev s (fun p2 s2 => reMatch fuel b p2 s2 k)
  | fuel + 1, .alt a b, prev, s, k =>
    match reMatch fuel a prev s k with
    | some r => some r
    | none => reMatch fuel b prev s k
  | fuel + 1, .star a, prev, s, k =>
    match reMatch fuel a prev s
        (fun p2 s2 =>
          if s2.length == s.length then none
          else reMatch fuel (.star a) p2 s2 k) with
    | some r => some r
    | none => k prev s

/-- Fuel that bounds the recursion depth of `reMatch` on suffix `s`. -/
def reFuel (r : Re) (s : List Char) : Nat :=
  (reSize r + 2) * (s.length + 2) + 16

/-- Try a match at successive start positions of `s` beginning at `start`;
returns start index and match length of the leftmost match (JavaScript
search order). -/
def reSearchAux (r : Re) (s : List Char) : Nat → Nat → Option (Nat × Nat)
  | 0, _ => none
  | rem + 1, start =>
    let prev := if start = 0 then none else (s.drop (start - 1)).head?
    let suf := s.drop start
    match reMatch (reFuel r suf) r prev suf (fun _ rest => some rest) with
    | some rest => some (start, suf.length - rest.length)
    | none => reSearchAux r s rem (start + 1)

/-- Leftmost match of `r` in `s` at or after index `start`. -/
def reSearch (r : Re) (s : List Char) (start : Nat) : Option (Nat × Nat) :=
  reSearchAux r s (s.length + 1 - start) start

/-- JavaScript `RegExp.test`. -/
def reTest (r : Re) (s : List Char) : Bool := (reSearch r s 0).isSome

/-- All matched substrings, non-overlapping, left to right
(JavaScript `String.match` with the `g` flag). -/
def reFindAllAux (r : Re) (s : List Char) : Nat → Nat → List (List Char)
  | 0, _ => []
  | rem + 1, start =>
    match reSearch r s start with
    | none => []
    | some (i, len) =>
      let m := (s.drop i).take len
      if len = 0 then m :: reFindAllAux r s rem (i + 1)
      else m :: reFindAllAux r s rem (i + len)

/-- All matches of `r` in `s`. -/
def reFindAll (r : Re) (s : List Char) : List (List Char) :=
  reFindAllAux r s (s.length + 1) 0

/-- JavaScript `String.replace` with the `g` flag and a replacer function. -/
def reReplaceAllAux (r : Re) (s : List Char) (f : List Char → List Char) :
    Nat → Nat → List Char
  | 0, start => s.drop start
  | rem + 1, start =>
    match reSearch r s start with
    | none => s.drop start
    | some (i, len) =>
      let pre := (s.drop start).take (i - start)
      let m := (s.drop i).take len
      if len = 0 then
        pre ++ f m ++
          (match s.drop i with
           | [] => []
           | c :: _ => c :: reReplaceAllAux r s f rem (i + 1))
      else pre ++ f m ++ reReplaceAllAux r s f rem (i + len)

/-- Global regex replacement on a string. -/
def reReplaceAll (r : Re) (f : List Char → List Char) (s : String) : String :=
  String.mk (reReplaceAllAux r s.data f (s.data.length + 1) 0)

/-! ### Regex construction helpers -/

def chrR (c : Char) : Re := .cls (fun x => x == c)

def chrCI (c : Char) : Re := .cls (fun x => charCI x c)

def strR (s : String) : Re := s.data.foldr (fun c r => .seq (chrR c) r) .eps

def strCI (s : String) : Re := s.data.foldr (fun c r => .seq (chrCI c) r) .eps

def rOpt (r : Re) : Re := .alt r .eps

def rPlus (r : Re) : Re := .seq r (.star r)

def rRep (r : Re) : Nat → Re
  | 0 => .eps
  | n + 1 => .seq r (rRep r n)

/-- `r{n,}` — greedy. -/
def rAtLeast (r : Re) (n : Nat) : Re := .seq (rRep r n) (.star r)

/-- Left-to-right alternation of a non-empty list. -/
def altL : List Re → Re
  | [] => .eps
  | [r] => r
  | r :: rest => .alt r (altL rest)

def wsR : Re := .cls Char.isWhitespace

def quoteR : Re := .cls (fun c => c == squote || c == dquote)

def alnumR : Re := .cls (fun c => c.isAlpha || c.isDigit)

def digitR : Re := .cls Char.isDigit

def upperDigitR : Re := .cls (fun c => ('A' ≤ c && c ≤ 'Z') || c.isDigit)

def wordR : Re := .cls isWordChar

/-! ## Content filter (`src/security/filter.ts`)

`SENSITIVE_PATTERNS` in source order.  Flags: all are global; all but the
Telegram-token, AWS-key-id and email patterns are case-insensitive. -/

namespace SecurityFilter

/-- `/(?:api[_-]?key|apikey)['":\s]*['"]?([a-zA-Z0-9_-]{20,})/gi` key/value
separator part, shared with the token and password patterns. -/
def kvSepR : Re :=
  .seq (.star (.cls (fun c => c == squote || c == dquote || c == ':' || c.isWhitespace)))
    (rOpt quoteR)

def keyCharR : Re := .cls (fun c => c.isAlpha || c.isDigit || c == '_' || c == '-')

def tokenCharR : Re := .cls (fun c => c.isAlpha || c.isDigit || c == '_' || c == '.' || c == '-')

def patApiKey : Re :=
  .seq (.alt (.seq (strCI "api") (.seq (rOpt (.cls (fun c => c == '_' || c == '-'))) (strCI "key")))
             (strCI "apikey"))
    (.seq kvSepR (rAtLeast keyCharR 20))

def patSkPk : Re :=
  .seq (.alt (strCI "sk-") (strCI "pk-")) (rAtLeast alnumR 20)

def patMoltbook : Re := .seq (strCI "moltbook_sk_") (rPlus alnumR)

def patToken : Re :=
  .seq (altL [strCI "token", strCI "bearer", strCI "auth"])
    (.seq kvSepR (rAtLeast tokenCharR 20))

def patAccessToken : Re :=
  .seq (.alt (strCI "access_token") (strCI "refresh_token"))
    (.seq kvSepR (rAtLeast tokenCharR 20))

def patTelegram : Re :=
  .seq (rAtLeast digitR 8) (.seq (chrR ':') (rAtLeast keyCharR 30))

def patPassword : Re :=
  .seq (altL [strCI "password", strCI "passwd", strCI "pwd", strCI "secret"])
    (.seq kvSepR
      (rAtLeast (.cls (fun c => !(c.isWhitespace || c == squote || c == dquote))) 8))

def patPrivateKey : Re :=
  .seq (strCI "-----BEGIN ")
    (.seq (rOpt (altL [strCI "RSA ", strCI "EC ", strCI "OPENSSH "]))
      (strCI "PRIVATE KEY-----"))

def patCertificate : Re := strCI "-----BEGIN CERTIFICATE-----"

def patAwsKeyId : Re :=
  .seq (altL [strR "AKIA", strR "ABIA", strR "ACCA", strR "ASIA"]) (rRep upperDigitR 16)

def patAwsSecret : Re :=
  .seq (strCI "aws")
    (.seq (rOpt (.cls (fun c => c == '_' || c == '-')))
      (.seq (.alt (.seq (strCI "access")
                    (.seq (rOpt (.cls (fun c => c == '_' || c == '-'))) (strCI "key")))
                  (strCI "secret"))
        (.seq kvSepR
          (rAtLeast (.cls (fun c => c.isAlpha || c.isDigit || c == '/' || c == '+' || c == '=')) 20))))

def patDbUrl : Re :=
  .seq (altL [strCI "mongodb", strCI "postgres", strCI "mysql", strCI "redis"])
    (.seq (strR "://")
      (rPlus (.cls (fun c => !(c.isWhitespace || c == squote || c == dquote)))))

def patEmail : Re :=
  .seq .wb
    (.seq (rPlus (.cls (fun c => c.isAlpha || c.isDigit || c == '.' || c == '_' || c == '%' || c == '+' || c == '-')))
      (.seq (chrR '@')
        (.seq (rPlus (.cls (fun c => c.isAlpha || c.isDigit || c == '.' || c == '-')))
          (.seq (chrR '.')
            (.seq (rAtLeast (.cls (fun c => c.isAlpha || c == '|')) 2) .wb)))))

def patHomePath : Re :=
  .seq (altL [strCI "/Users/", strCI "/home/",
              .seq (strCI "C:") (.seq (chrR bslash) (.seq (strCI "Users") (chrR bslash)))])
    (rPlus (.cls (fun c => !(c.isWhitespace || c == squote || c == dquote))))

def patProcessEnv : Re :=
  .seq (strCI "process") (.seq (chrR '.')
    (.seq (strCI "env") (.seq (chrR '.')
      (rPlus (.cls (fun c => c.isAlpha || c == '_'))))))

/-- The `SENSITIVE_PATTERNS` array, in source order. -/
def sensitivePatterns : List Re :=
  [patApiKey, patSkPk, patMoltbook,
   patToken, patAccessToken, patTelegram,
   patPassword,
   patPrivateKey, patCertificate,
   patAwsKeyId, patAwsSecret,
   patDbUrl,
   patEmail,
   patHomePath,
   patProcessEnv]

/-- `SecurityFilter.sanitize`: for each pattern, collect all matches on the
current text, then replace the first occurrence of each matched string by
`[REDACTED]`, in order.  (The per-replacement `blockedCount` counter is
logging-only state and is not modelled.) -/
def sanitize (text : String) : String :=
  if text = "" then text
  else
    sensitivePatterns.foldl
      (fun sanitized pat =>
        (reFindAll pat sanitized.data).foldl
          (fun s m => replaceFirst s (String.mk m) "[REDACTED]") sanitized)
      text

/-- `(?:const|let|var)\s+\w*(?:key|token|secret|password|api)\w*\s*=\s*['"][^'"]{20,}['"]` -/
def declSecretR : Re :=
  .seq (altL [strCI "const", strCI "let", strCI "var"])
    (.seq (rPlus wsR)
      (.seq (.star wordR)
        (.seq (altL [strCI "key", strCI "token", strCI "secret", strCI "password", strCI "api"])
          (.seq (.star wordR)
            (.seq (.star wsR)
              (.seq (chrR '=')
                (.seq (.star wsR)
                  (.seq quoteR
                    (.seq (rAtLeast (.cls (fun c => !(c == squote || c == dquote))) 20)
                      quoteR)))))))))

/-- Extract the variable name from a declaration match:
`match.match(/(?:const|let|var)\s+(\w+)/)?.[1]`, leftmost occurrence,
alternatives in order `const`, `let`, `var`. -/
def extractVarNameAux : Nat → List Char → Option (List Char)
  | 0, _ => none
  | rem + 1, s =>
    let kw : Option (List Char) :=
      if listPre "const".data s then some (s.drop 5)
      else if listPre "let".data s then some (s.drop 3)
      else if listPre "var".data s then some (s.drop 3)
      else none
    let here : Option (List Char) :=
      match kw with
      | none => none
      | some rest =>
        let ws := rest.takeWhile Char.isWhitespace
        if ws.isEmpty then none
        else
          let w := (rest.drop ws.length).takeWhile isWordChar
          if w.isEmpty then none else some w
    match here with
    | some w => some w
    | none =>
      match s with
      | [] => none
      | _ :: t => extractVarNameAux rem t

def extractVarName (m : List Char) : List Char :=
  (extractVarNameAux (m.length + 1) m).getD "secret".data

/-- Replacer for the declaration rewrite in `sanitizeCode`. -/
def declReplacer (m : List Char) : List Char :=
  let varName := extractVarName m
  "const ".data ++ varName ++ " = process.env.".data ++ varName.map Char.toUpper
    ++ " // [REDACTED]".data

/-- `\(\s*['"][a-zA-Z0-9_.-]{32,}['"]\s*\)` -/
def inlineSecretR : Re :=
  .seq (chrR '(')
    (.seq (.star wsR)
      (.seq quoteR
        (.seq (rAtLeast tokenCharR 32)
          (.seq quoteR
            (.seq (.star wsR) (chrR ')'))))))

/-- `SecurityFilter.sanitizeCode`: `sanitize` plus the declaration rewrite and
the inline-call-argument rewrite. -/
def sanitizeCode (code : String) : String :=
  let s1 := sanitize code
  let s2 := reReplaceAll declSecretR declReplacer s1
  reReplaceAll inlineSecretR (fun _ => "(process.env.SECRET /* [REDACTED] */)".data) s2

def volumesPathR : Re :=
  .seq (strR "/Volumes/")
    (rPlus (.cls (fun c => !(c.isWhitespace || c == squote || c == dquote))))

def usersPathR : Re :=
  .seq (strR "/Users/")
    (rPlus (.cls (fun c => !(c.isWhitespace || c == squote || c == dquote))))

def homePathR : Re :=
  .seq (strR "/home/")
    (rPlus (.cls (fun c => !(c.isWhitespace || c == squote || c == dquote))))

def winPathR : Re :=
  .seq (strCI "C:") (.seq (chrR bslash)
    (rPlus (.cls (fun c => !(c.isWhitespace || c == squote || c == dquote)))))

/-- `\d{1,3}` — greedy, at most three digits. -/
def upTo3DigitsR : Re := .seq digitR (rOpt (.seq digitR (rOpt digitR)))

def ipR : Re :=
  .seq .wb
    (.seq upTo3DigitsR (.seq (chrR '.')
      (.seq upTo3DigitsR (.seq (chrR '.')
        (.seq upTo3DigitsR (.seq (chrR '.')
          (.seq upTo3DigitsR .wb)))))))

def localhostR : Re := .seq (strCI "localhost:") (rPlus digitR)

/-- `SecurityFilter.sanitizeForSharing`: `sanitize` plus path, IP and
localhost-port scrubbing. -/
def sanitizeForSharing (text : String) : String :=
  let s1 := sanitize text
  let s2 := reReplaceAll volumesPathR (fun _ => "[PATH_REDACTED]".data) s1
  let s3 := reReplaceAll usersPathR (fun _ => "[PATH_REDACTED]".data) s2
  let s4 := reReplaceAll homePathR (fun _ => "[PATH_REDACTED]".data) s3
  let s5 := reReplaceAll winPathR (fun _ => "[PATH_REDACTED]".data) s4
  let s6 := reReplaceAll ipR (fun _ => "[IP_REDACTED]".data) s5
  reReplaceAll localhostR (fun _ => "localhost:[PORT]".data) s6

/-! ### `isCodeSafe` — heuristic static scan -/

def requireFsR : Re :=
  .seq (strR "require") (.seq (.star wsR)
    (.seq (chrR '(') (.seq (.star wsR)
      (.seq quoteR (.seq (strR "fs") (.seq quoteR (.seq (.star wsR) (chrR ')'))))))))

def fromFsR : Re :=
  .seq (strR "from") (.seq (rPlus wsR) (.seq quoteR (.seq (strR "fs") quoteR)))

def fromNodeFsR : Re :=
  .seq (strR "from") (.seq (rPlus wsR) (.seq quoteR (.seq (strR "node:fs") quoteR)))

def rwFileR : Re :=
  altL [strR "readFileSync", strR "writeFileSync", strR "readFile", strR "writeFile"]

def hardPathR : Re :=
  .seq quoteR (.seq (chrR '/')
    (altL [strR "Users", strR "home", strR "etc", strR "var", strR "tmp"]))

def envSecretR : Re :=
  .seq (strCI "process") (.seq (chrR '.')
    (.seq (strCI "env") (.seq (chrR '.')
      (.seq (.star (.cls (fun c => c.isAlpha || c == '_')))
        (altL [strCI "KEY", strCI "TOKEN", strCI "SECRET", strCI "PASSWORD"])))))

def execSuspiciousR : Re :=
  .seq (altL [strCI "exec", strCI "spawn", strCI "execSync"])
    (.seq (.star wsR)
      (.seq (chrR '(')
        (.seq (.star (.cls (fun c => !(c == ')'))))
          (altL [strCI "curl", strCI "wget",
                 .seq (strCI "cat") (.seq (rPlus wsR) (chrR '/')),
                 .seq (strCI "cat") (.seq (rPlus wsR) (chrR '~'))]))))

def exfilFetchR : Re :=
  .seq (altL [strCI "fetch", strCI "axios",
              .seq (strCI "http") (.seq (chrR '.') (strCI "get"))])
    (.seq (.star wsR)
      (.seq (chrR '(')
        (.seq (.star (.cls (fun c => !(c == ')'))))
          (altL [strCI "ngrok", strCI "requestbin",
                 .seq (strCI "webhook") (.seq (chrR '.') (strCI "site"))]))))

structure SafetyResult where
  safe : Bool
  issues : List String
  deriving Repr, DecidableEq

/-- `SecurityFilter.isCodeSafe`: the four heuristic checks, issues collected in
source order, `safe` iff no issue. -/
def isCodeSafe (code : String) : SafetyResult :=
  let cs := code.data
  let issues : List String :=
    (if (reTest requireFsR cs || reTest fromFsR cs || reTest fromNodeFsR cs)
        && reTest rwFileR cs && reTest hardPathR cs
     then ["Attempts to access files outside sandbox"] else []) ++
    (if reTest envSecretR cs
     then ["Attempts to access sensitive environment variables"] else []) ++
    (if reTest execSuspiciousR cs
     then ["Attempts to execute suspicious commands"] else []) ++
    (if reTest exfilFetchR cs
     then ["Attempts to send data to external services"] else [])
  { safe := issues.isEmpty, issues := issues }

end SecurityFilter

/-! ## Sandbox guard (`src/security/sandbox.ts`)

POSIX path semantics of Node's `path.resolve` / `path.normalize` /
`path.relative`, on component lists.  `resolve` of a relative path joins it to
the current working directory (Node reads `process.cwd()` at call time, so the
model passes `cwd` explicitly; the class captures `root` at construction).
`normalize` applied to the output of `resolve` is the identity, so the model
folds the two into `resolveComps`. -/

namespace Sandbox

/-- Components of a path string (split at slashes, raw). -/
def splitSlash (s : String) : List String := splitOnChar '/' s

def isAbsolute (p : String) : Bool := strStartsWith p "/"

/-- Normalization step for absolute paths: drop empty and `.` components,
let `..` pop (clamped at the root, as Node does for absolute paths). -/
def normStep (acc : List String) (c : String) : List String :=
  if c = "" || c = "." then acc
  else if c = ".." then acc.dropLast
  else acc ++ [c]

def normAbs (cs : List String) : List String := cs.foldl normStep []

/-- `path.resolve(p)` relative to `cwd`, as normalized components. -/
def resolveComps (cwd p : String) : List String :=
  if isAbsolute p then normAbs (splitSlash p)
  else normAbs (splitSlash cwd ++ splitSlash p)

/-- Join components with slashes (no leading slash). -/
def joinComps : List String → String
  | [] => ""
  | [c] => c
  | c :: rest => c ++ "/" ++ joinComps rest

/-- Render normalized absolute components as a path string. -/
def renderAbs (cs : List String) : String := "/" ++ joinComps cs

/-- `path.relative(from, to)` on resolved component lists: strip the common
prefix, then one `..` per remaining `from` component followed by the remaining
`to` components. -/
def relComps : List String → List String → List String
  | [], ts => ts
  | f :: fs, [] => (f :: fs).map (fun _ => "..")
  | f :: fs, t :: ts =>
    if f = t then relComps fs ts
    else (f :: fs).map (fun _ => "..") ++ t :: ts

/-- Is `a` a component-prefix of `b` (i.e. does `b` lie in `a`'s subtree)? -/
def compsPre : List String → List String → Bool
  | [], _ => true
  | _ :: _, [] => false
  | a :: as, b :: bs => a == b && compsPre as bs

/-- A recorded sandbox violation (`logViolation` pushes path, ISO timestamp
and reason code). -/
structure Violation where
  path : String
  timestamp : String
  action : String
  deriving Repr, DecidableEq

/-- `BLOCKED_PATHS` from the source. -/
def blockedPaths : List String :=
  [".env", ".env.local", ".env.production", "credentials", "secrets",
   ".git/config", "id_rsa", "id_ed25519", ".ssh", ".aws", ".npmrc", ".pypirc"]

/-- `BLOCKED_EXTENSIONS` from the source. -/
def blockedExtensions : List String :=
  [".pem", ".key", ".p12", ".pfx", ".keystore"]

/-- `Sandbox.isPathAllowed`.  `root` is the stored sandbox root
(`resolve(process.cwd())` at module load), `cwd` the working directory at call
time, `now` the ISO timestamp used for a violation record.  Returns the
decision and the updated violation log.  The source's `catch` branch
(`invalid_path`) is unreachable in the model because the path functions are
total. -/
def isPathAllowed (root cwd : String) (violations : List Violation)
    (targetPath now : String) : Bool × List Violation :=
  let resolvedC := resolveComps cwd targetPath
  let normalized := renderAbs resolvedC
  let relC := relComps (resolveComps cwd root) resolvedC
  let rel := joinComps relC
  if strStartsWith rel ".." || renderAbs (resolveComps cwd rel) == normalized then
    (false, violations ++ [⟨targetPath, now, "outside_sandbox"⟩])
  else
    let lowerPath := strToLower normalized
    if blockedPaths.any (fun b => strContains lowerPath (strToLower b)) then
      (false, violations ++ [⟨targetPath, now, "blocked_path"⟩])
    else if blockedExtensions.any (fun e => strEndsWith lowerPath e) then
      (false, violations ++ [⟨targetPath, now, "blocked_extension"⟩])
    else (true, violations)

end Sandbox

/-! ## Data model shared by the self-improvement modules -/

structure Issue where
  area : String
  description : String
  severity : String
  deriving Repr, DecidableEq

structure Solution where
  description : String
  approach : String
  code : String
  language : String
  filename : String
  estimatedImpact : String
  deriving Repr, DecidableEq

structure ImprovementProposal where
  id : String
  issue : Issue
  solution : Solution
  deriving Repr, DecidableEq

/-! ## Auto-implementer (`auto-implement` module, unnamed source part)

Filesystem state is an association list (newest binding first); git is a list
of commit messages plus a deterministic short-hash stand-in.  `writeThrows`
models `writeFileSync` raising at the write step (the only step whose
exception reaches the outer `catch`; `gitCommit` swallows its own errors and
returns the `"no-commit"` sentinel). -/

def fsLookup (files : List (String × String)) (p : String) : Option String :=
  (files.find? (fun e => e.1 = p)).map (·.2)

def fsWrite (files : List (String × String)) (p c : String) : List (String × String) :=
  (p, c) :: files.filter (fun e => !(e.1 = p))

def fsExists (files : List (String × String)) (p : String) : Bool :=
  (fsLookup files p).isSome

def fsRemove (files : List (String × String)) (p : String) : List (String × String) :=
  files.filter (fun e => !(e.1 = p))

namespace AutoImplementer

structure Implementation where
  id : String
  timestamp : String
  proposalId : String
  version : String
  file : String
  action : String
  backupPath : Option String
  gitCommit : Option String
  success : Bool
  error : Option String
  deriving Repr, DecidableEq

structure HistoryStore where
  implementations : List Implementation
  totalImplemented : Nat
  totalFailed : Nat
  lastImplementation : Option String
  deriving Repr, DecidableEq

/-- Module-level constants (`SRC_DIR`, `BACKUP_DIR` derived from config) plus
the sandbox root captured at module load and the process working directory. -/
structure Env where
  srcDir : String
  backupDir : String
  root : String
  cwd : String
  deriving Repr

structure State where
  files : List (String × String)
  commits : List String
  violations : List Sandbox.Violation
  history : HistoryStore
  deriving Repr

/-- The `areaToDir` table in `determineTargetPath`. -/
def areaToDir (area : String) : Option String :=
  if area = "decision_making" then some "agent"
  else if area = "learning" then some "evolution"
  else if area = "efficiency" then some "utils"
  else if area = "memory" then some "memory"
  else if area = "engagement" then some "agent"
  else if area = "optimization" then some "utils"
  else none

/-- `AutoImplementer.determineTargetPath`: lower-cased area mapped through the
table, defaulting to `improvements`, joined with the solution filename. -/
def determineTargetPath (p : ImprovementProposal) : String :=
  let area := strToLower p.issue.area
  let dir := (areaToDir area).getD "improvements"
  dir ++ "/" ++ p.solution.filename

/-- `AutoImplementer.createBackup` target path:
`BACKUP_DIR/version-timestamp-filename` with `:` and `.` in the ISO timestamp
replaced by `-`. -/
def backupPathFor (env : Env) (version nowIso filePath : String) : String :=
  let timestamp := replaceChars (fun c => c == ':' || c == '.') ['-'] nowIso
  let filename :=
    match (splitOnChar '/' filePath).getLast? with
    | some f => if f = "" then "backup" else f
    | none => "backup"
  env.backupDir ++ "/" ++ version ++ "-" ++ timestamp ++ "-" ++ filename

/-- `AutoImplementer.formatCode`: provenance header wrapped around the
(sanitized) solution code. -/
def formatCode (p : ImprovementProposal) (version nowIso sanitizedCode : String) : String :=
  "/**\n * EvolAI Self-Generated Code v" ++ version ++
  "\n * =====================================\n * Auto-implemented: " ++ nowIso ++
  "\n * \n * Issue: " ++ p.issue.description ++
  "\n * Area: " ++ p.issue.area ++
  "\n * Severity: " ++ p.issue.severity ++
  "\n * \n * Solution: " ++ p.solution.description ++
  "\n * Expected Impact: " ++ p.solution.estimatedImpact ++
  "\n * \n * 🔒 SECURITY: This code was validated and sanitized before implementation.\n" ++
  " * This code was autonomously generated and implemented by EvolAI.\n */\n\n" ++
  sanitizedCode ++ "\n"

/-- The commit message built by `AutoImplementer.gitCommit`. -/
def commitMessage (p : ImprovementProposal) (version : String) : String :=
  "🤖 Auto-improve v" ++ version ++ ": " ++ p.issue.area ++
  "\n\n" ++ p.solution.description ++
  "\n\nIssue: " ++ p.issue.description ++
  "\nSeverity: " ++ p.issue.severity ++
  "\nImpact: " ++ p.solution.estimatedImpact ++
  "\n\nThis commit was autonomously created by EvolAI."

/-- `AutoImplementer.gitCommit`: stage + commit + short hash.  `commitFails`
models the inner `catch`, which returns the `"no-commit"` sentinel.  The short
hash is modelled deterministically from the commit count. -/
def gitCommit (st : State) (p : ImprovementProposal) (version : String)
    (commitFails : Bool) : String × State :=
  if commitFails then ("no-commit", st)
  else
    let msg := replaceChars (fun c => c == dquote)
      (bslash :: [dquote]) (commitMessage p version)
    ("h" ++ toString (st.commits.length + 1), { st with commits := st.commits ++ [msg] })

/-- `AutoImplementer.implement`.  Mirrors the control flow of the source: the
security and sandbox rejections `return` from inside the `try` and therefore
skip the history-recording epilogue; the success and `catch` paths fall
through to it. -/
def implement (env : Env) (st : State) (p : ImprovementProposal)
    (version nowIso nowMs : String) (writeThrows commitFails : Bool) :
    State × Implementation :=
  let impl0 : Implementation :=
    { id := "impl-" ++ nowMs
      timestamp := nowIso
      proposalId := p.id
      version := version
      file := p.solution.filename
      action := "created"
      backupPath := none
      gitCommit := none
      success := false
      error := none }
  let codeValidation := SecurityFilter.isCodeSafe p.solution.code
  if !codeValidation.safe then
    (st, { impl0 with
      error := some ("Security validation failed: " ++
        joinWith ", " codeValidation.issues) })
  else
    let sanitizedCode := SecurityFilter.sanitizeCode p.solution.code
    let targetPath := determineTargetPath p
    let fullPath := env.srcDir ++ "/" ++ targetPath
    let sb := Sandbox.isPathAllowed env.root env.cwd st.violations fullPath nowIso
    let st1 := { st with violations := sb.2 }
    if !sb.1 then
      (st1, { impl0 with error := some "Path outside sandbox" })
    else
      let existed := fsExists st1.files fullPath
      let impl1 :=
        if existed then
          { impl0 with
            action := "modified"
            backupPath := some (backupPathFor env version nowIso fullPath) }
        else impl0
      let oldContent := (fsLookup st1.files fullPath).getD ""
      let st2 :=
        if existed then
          { st1 with
            files := fsWrite st1.files (backupPathFor env version nowIso fullPath) oldContent }
        else st1
      if writeThrows then
        let impl2 := { impl1 with success := false, error := some "write failed" }
        ({ st2 with history :=
            { st2.history with
              totalFailed := st2.history.totalFailed + 1
              implementations := st2.history.implementations ++ [impl2]
              lastImplementation := some nowIso } }, impl2)
      else
        let code := formatCode p version nowIso sanitizedCode
        let st3 := { st2 with files := fsWrite st2.files fullPath code }
        let gc := gitCommit st3 p version commitFails
        let impl2 := { impl1 with gitCommit := some gc.1, success := true }
        ({ gc.2 with history :=
            { gc.2.history with
              totalImplemented := gc.2.history.totalImplemented + 1
              implementations := gc.2.history.implementations ++ [impl2]
              lastImplementation := some nowIso } }, impl2)

/-- `AutoImplementer.rollback`: requires an `Implementation` with a backup;
recomputes the target path with an **empty** issue area (as the source does),
copies the backup over it and commits.  Returns the updated state and the
boolean result. -/
def rollback (env : Env) (st : State) (implementationId : String) :
    State × Bool :=
  match st.history.implementations.find? (fun i => i.id = implementationId) with
  | none => (st, false)
  | some impl =>
    match impl.backupPath with
    | none => (st, false)
    | some bp =>
      let targetPath := env.srcDir ++ "/" ++ determineTargetPath
        { id := ""
          issue := { area := "", description := "", severity := "low" }
          solution := { description := "", approach := "", code := ""
                        language := "", filename := impl.file, estimatedImpact := "" } }
      match fsLookup st.files bp with
      | none => (st, false)
      | some content =>
        let st1 := { st with files := fsWrite st.files targetPath content }
        let st2 := { st1 with commits := st1.commits ++ ["↩️ Rollback " ++ impl.id] }
        (st2, true)

end AutoImplementer

/-! ## Version ledger (`src/self-improvement/versioning.ts`)

The store drives all version arithmetic; `saveVersionCode` and the changelog
are filesystem artifacts whose paths are computed here but whose file writes
carry no information the ledger does not already hold, so only the snapshot
path computation is represented.  JavaScript `Number` on split components is
modelled by `Option Nat` (`none` = `NaN`, rendered `"NaN"`; `Number("") = 0`).
-/

namespace VersionManager

inductive VType where
  | improvement | bugfix | feature | optimization
  deriving Repr, DecidableEq

structure ChangeEntry where
  file : String
  action : String
  description : String
  linesAdded : Nat
  deriving Repr, DecidableEq

structure Version where
  id : String
  version : String
  createdAt : String
  proposalId : String
  type : VType
  summary : String
  changes : List ChangeEntry
  status : String
  codeFile : String
  deriving Repr, DecidableEq

structure VersionStore where
  currentVersion : String
  versions : List Version
  totalChanges : Nat
  lastUpdate : Option String
  deriving Repr, DecidableEq

/-- The store a fresh `VersionManager` starts from. -/
def initialStore : VersionStore :=
  { currentVersion := "1.0.0", versions := [], totalChanges := 0, lastUpdate := none }

/-- JavaScript `Number(component)` for changelog version components:
`none` is `NaN`; the empty string parses to `0`. -/
def parseNumJS (s : String) : Option Nat :=
  if s = "" then some 0
  else if s.data.all Char.isDigit then
    some (s.data.foldl (fun acc c => acc * 10 + (c.toNat - 48)) 0)
  else none

/-- Render a possibly-`NaN` component the way a template literal would. -/
def renderNum : Option Nat → String
  | some n => toString n
  | none => "NaN"

def optSucc : Option Nat → Option Nat := Option.map (· + 1)

/-- `VersionManager.getNextVersion`: split the current version at dots,
convert with `Number`, bump per type. -/
def getNextVersion (currentVersion : String) (type : VType) : String :=
  let nums := (splitOnChar '.' currentVersion).map parseNumJS
  let major := (nums.get? 0).getD none
  let minor := (nums.get? 1).getD none
  let patch := (nums.get? 2).getD none
  match type with
  | .feature => renderNum major ++ "." ++ renderNum (optSucc minor) ++ ".0"
  | .improvement => renderNum major ++ "." ++ renderNum minor ++ "." ++ renderNum (optSucc patch)
  | .optimization => renderNum major ++ "." ++ renderNum minor ++ "." ++ renderNum (optSucc patch)
  | .bugfix => renderNum major ++ "." ++ renderNum minor ++ "." ++ renderNum (optSucc patch)

/-- `VersionManager.determineType`: keyword heuristics over area and issue
description, then severity. -/
def determineType (p : ImprovementProposal) : VType :=
  let area := strToLower p.issue.area
  let desc := strToLower p.issue.description
  if strContains area "efficiency" || strContains desc "faster"
      || strContains desc "performance" then .optimization
  else if strContains area "bug" || strContains desc "fix"
      || strContains desc "error" then .bugfix
  else if p.issue.severity = "high" then .feature
  else .improvement

/-- Snapshot path computed by `saveVersionCode`
(`VERSION_DIR/code/v<version>/<filename>`); `versionDir` stands for the
module-level `VERSION_DIR`. -/
def saveVersionCodePath (versionDir version filename : String) : String :=
  versionDir ++ "/code/v" ++ version ++ "/" ++ filename

/-- `VersionManager.createVersion`.  Note that the source pushes the new
`Version` and bumps `totalChanges`/`lastUpdate` but never assigns
`store.currentVersion`. -/
def createVersion (versionDir : String) (store : VersionStore)
    (p : ImprovementProposal) (nowIso nowMs : String) : VersionStore × Version :=
  let type := determineType p
  let version := getNextVersion store.currentVersion type
  let changes : List ChangeEntry :=
    [{ file := p.solution.filename
       action := "add"
       description := p.solution.description
       linesAdded := (splitOnChar '\n' p.solution.code).length }]
  let newVersion : Version :=
    { id := "v" ++ version ++ "-" ++ nowMs
      version := version
      createdAt := nowIso
      proposalId := p.id
      type := type
      summary := p.solution.description
      changes := changes
      status := "proposed"
      codeFile := saveVersionCodePath versionDir version p.solution.filename }
  ({ store with
      versions := store.versions ++ [newVersion]
      totalChanges := store.totalChanges + 1
      lastUpdate := some nowIso }, newVersion)

end VersionManager

/-! ## A small JSON model

Used by the hot patcher's `modify_json` action and the self-updater's
`package.json` read.  Numbers are kept as their source lexeme (sufficient for
round-tripping; the claims do not depend on numeric arithmetic). -/

inductive Json where
  | nul : Json
  | bool : Bool → Json
  | num : String → Json
  | str : String → Json
  | arr : List Json → Json
  | obj : List (String × Json) → Json
  deriving Repr

/-- Parse a JSON string body after the opening quote; returns content and the
input after the closing quote.  Standard escapes plus `\u` hex. -/
def parseJStr : Nat → List Char → Option (List Char × List Char)
  | 0, _ => none
  | fuel + 1, s =>
    match s with
    | [] => none
    | c :: rest =>
      if c == dquote then some ([], rest)
      else if c == bslash then
        match rest with
        | [] => none
        | e :: rest2 =>
          let esc : Option Char :=
            if e == dquote then some dquote
            else if e == bslash then some bslash
            else if e == '/' then some '/'
            else if e == 'b' then some (Char.ofNat 8)
            else if e == 'f' then some (Char.ofNat 12)
            else if e == 'n' then some '\n'
            else if e == 'r' then some '\r'
            else if e == 't' then some '\t'
            else none
          if e == 'u' then
            let hex := rest2.take 4
            if hex.length = 4 && hex.all (fun h => h.isDigit || ('a' ≤ h.toLower && h.toLower ≤ 'f')) then
              let v := hex.foldl (fun acc h =>
                acc * 16 + (if h.isDigit then h.toNat - 48 else h.toLower.toNat - 87)) 0
              (parseJStr fuel (rest2.drop 4)).map (fun r => (Char.ofNat v :: r.1, r.2))
            else none
          else
            match esc with
            | none => none
            | some ch => (parseJStr fuel rest2).map (fun r => (ch :: r.1, r.2))
      else (parseJStr fuel rest).map (fun r => (c :: r.1, r.2))

def isNumChar (c : Char) : Bool :=
  c.isDigit || c == '-' || c == '+' || c == '.' || c == 'e' || c == 'E'

mutual

/-- Fuel-indexed JSON value parser (skips leading whitespace). -/
def parseJ : Nat → List Char → Option (Json × List Char)
  | 0, _ => none
  | fuel + 1, s =>
    let s := s.dropWhile Char.isWhitespace
    match s with
    | [] => none
    | c :: rest =>
      if c == 'n' then
        if listPre "ull".data rest then some (.nul, rest.drop 3) else none
      else if c == 't' then
        if listPre "rue".data rest then some (.bool true, rest.drop 3) else none
      else if c == 'f' then
        if listPre "alse".data rest then some (.bool false, rest.drop 4) else none
      else if c == dquote then
        (parseJStr (rest.length + 1) rest).map (fun r => (.str (String.mk r.1), r.2))
      else if c == '[' then
        let rest2 := rest.dropWhile Char.isWhitespace
        match rest2 with
        | ']' :: rest3 => some (.arr [], rest3)
        | _ => (parseJArr fuel rest2).map (fun r => (.arr r.1, r.2))
      else if c == Char.ofNat 123 then
        let rest2 := rest.dropWhile Char.isWhitespace
        match rest2 with
        | d :: rest3 =>
          if d == Char.ofNat 125 then some (.obj [], rest3)
          else (parseJObj fuel rest2).map (fun r => (.obj r.1, r.2))
        | [] => none
      else
        let lex := s.takeWhile isNumChar
        if lex.isEmpty then none
        else some (.num (String.mk lex), s.drop lex.length)

/-- Comma-separated array elements up to `]`. -/
def parseJArr : Nat → List Char → Option (List Json × List Char)
  | 0, _ => none
  | fuel + 1, s =>
    match parseJ fuel s with
    | none => none
    | some (v, rest) =>
      let rest := rest.dropWhile Char.isWhitespace
      match rest with
      | ',' :: rest2 => (parseJArr fuel rest2).map (fun r => (v :: r.1, r.2))
      | ']' :: rest2 => some ([v], rest2)
      | _ => none

/-- Comma-separated object members up to the closing brace. -/
def parseJObj : Nat → List Char → Option (List (String × Json) × List Char)
  | 0, _ => none
  | fuel + 1, s =>
    let s := s.dropWhile Char.isWhitespace
    match s with
    | c :: rest =>
      if c == dquote then
        match parseJStr (rest.length + 1) rest with
        | none => none
        | some (key, rest2) =>
          let rest2 := rest2.dropWhile Char.isWhitespace
          match rest2 with
          | ':' :: rest3 =>
            match parseJ fuel rest3 with
            | none => none
            | some (v, rest4) =>
              let rest4 := rest4.dropWhile Char.isWhitespace
              match rest4 with
              | ',' :: rest5 =>
                (parseJObj fuel rest5).map (fun r => ((String.mk key, v) :: r.1, r.2))
              | d :: rest5 =>
                if d == Char.ofNat 125 then some ([(String.mk key, v)], rest5) else none
              | [] => none
          | _ => none
      else none
    | [] => none

end

/-- `JSON.parse`: parse a full value and require only whitespace afterwards. -/
def jsonParse (s : String) : Option Json :=
  match parseJ (s.data.length + 2) s.data with
  | none => none
  | some (j, rest) => if (rest.dropWhile Char.isWhitespace).isEmpty then some j else none

/-- JSON string escaping for rendering. -/
def jsonEscape (s : String) : String :=
  String.mk (s.data.foldr
    (fun c acc =>
      if c == dquote then bslash :: dquote :: acc
      else if c == bslash then bslash :: bslash :: acc
      else if c == '\n' then bslash :: 'n' :: acc
      else if c == '\r' then bslash :: 'r' :: acc
      else if c == '\t' then bslash :: 't' :: acc
      else c :: acc) [])

mutual

/-- `JSON.stringify(x, null, 2)`: two-space pretty printer. -/
def jsonRender (ind : String) : Json → String
  | .nul => "null"
  | .bool true => "true"
  | .bool false => "false"
  | .num lex => lex
  | .str s => String.mk [dquote] ++ jsonEscape s ++ String.mk [dquote]
  | .arr [] => "[]"
  | .arr (x :: xs) =>
    let ind2 := ind ++ "  "
    "[\n" ++ ind2 ++ jsonRender ind2 x ++ jsonRenderArr ind2 xs ++ "\n" ++ ind ++ "]"
  | .obj [] => String.mk [Char.ofNat 123, Char.ofNat 125]
  | .obj (kv :: kvs) =>
    let ind2 := ind ++ "  "
    String.mk [Char.ofNat 123] ++ "\n" ++ ind2 ++
      String.mk [dquote] ++ jsonEscape kv.1 ++ String.mk [dquote] ++ ": " ++
      jsonRender ind2 kv.2 ++ jsonRenderObj ind2 kvs ++
      "\n" ++ ind ++ String.mk [Char.ofNat 125]

def jsonRenderArr (ind2 : String) : List Json → String
  | [] => ""
  | x :: xs => ",\n" ++ ind2 ++ jsonRender ind2 x ++ jsonRenderArr ind2 xs

def jsonRenderObj (ind2 : String) : List (String × Json) → String
  | [] => ""
  | kv :: kvs =>
    ",\n" ++ ind2 ++ String.mk [dquote] ++ jsonEscape kv.1 ++ String.mk [dquote] ++ ": " ++
      jsonRender ind2 kv.2 ++ jsonRenderObj ind2 kvs

end

def jsonStringify2 (j : Json) : String := jsonRender "" j

/-- Field list of an object value (empty for non-objects). -/
def jObjFields : Json → List (String × Json)
  | .obj kvs => kvs
  | _ => []

def jLookup (kvs : List (String × Json)) (k : String) : Option Json :=
  (kvs.find? (fun e => e.1 = k)).map (·.2)

/-- Update-or-append preserving insertion order (JS object assignment). -/
def jSetKey (kvs : List (String × Json)) (k : String) (v : Json) : List (String × Json) :=
  if (kvs.find? (fun e => e.1 = k)).isSome then
    kvs.map (fun e => if e.1 = k then (k, v) else e)
  else kvs ++ [(k, v)]

mutual

/-- `HotPatcher.deepMerge`: objects merge recursively, arrays and scalars are
replaced wholesale.  (`result[key] || {}` with a truthy non-object existing
value spreads it in JS; the model uses the empty object there.) -/
def deepMerge : Json → Json → Json
  | t, .obj skvs => .obj (mergeInto (jObjFields t) skvs)
  | t, s =>
    match s with
    | .obj _ => t
    | _ => .obj (jObjFields t)

/-- Fold the source members into the (already spread) target members. -/
def mergeInto : List (String × Json) → List (String × Json) → List (String × Json)
  | acc, [] => acc
  | acc, (k, v) :: rest =>
    let v2 :=
      match v with
      | .obj kvs =>
        deepMerge (match jLookup acc k with
                   | some (.obj o) => .obj o
                   | _ => .obj []) (.obj kvs)
      | _ => v
    mergeInto (jSetKey acc k v2) rest

end

/-! ## Hot patcher (`src/self-improvement/hot-patch.ts`)

`saveLog` persists the in-memory log to `applied.json`; behaviour is driven by
the in-memory log, so the serialized file is not represented.  Failures inside
`apply` leave the patch in `pending` with `success := false` (the in-place
object mutation of the source). -/

namespace HotPatcher

inductive PatchAction where
  | replace | append | modifyJson
  deriving Repr, DecidableEq

structure Patch where
  id : String
  type : String
  description : String
  target : String
  action : PatchAction
  oldValue : Option String
  newValue : String
  appliedAt : Option String
  success : Option Bool
  deriving Repr, DecidableEq

/-- Module-level path constants (`dirname(CONFIG.paths.memory)` and
`PROJECT_ROOT`) plus the sandbox parameters. -/
structure Env where
  dataDir : String
  projectRoot : String
  root : String
  cwd : String
  deriving Repr

structure State where
  files : List (String × String)
  pending : List Patch
  applied : List Patch
  totalApplied : Nat
  violations : List Sandbox.Violation
  deriving Repr

/-- `HotPatcher.resolveTargetPath`: `data/`-relative, `config/`-relative
(under `src`), else project-root-relative. -/
def resolveTargetPath (env : Env) (target : String) : String :=
  if strStartsWith target "data/" then
    env.dataDir ++ "/" ++ String.mk (target.data.drop 5)
  else if strStartsWith target "config/" then
    env.projectRoot ++ "/src/" ++ target
  else
    env.projectRoot ++ "/" ++ target

/-- Split a list at the first element satisfying `p`
(`Array.prototype.findIndex` + `splice` semantics). -/
def splitFirst (p : Patch → Bool) : List Patch → Option (List Patch × Patch × List Patch)
  | [] => none
  | x :: xs =>
    if p x then some ([], x, xs)
    else (splitFirst p xs).map (fun r => (x :: r.1, r.2.1, r.2.2))

/-- `HotPatcher.apply`, the per-action body.  Returns the updated file map or
the thrown error message. -/
def applyAction (st : State) (patch : Patch) (targetPath : String) :
    Except String (List (String × String)) :=
  match patch.action with
  | .replace =>
    match fsLookup st.files targetPath with
    | none => .error ("File not found: " ++ targetPath)
    | some content =>
      let hasOld := match patch.oldValue with | some s => !(s = "") | none => false
      if hasOld && !(strContains content ((patch.oldValue).getD "")) then
        .error "Old value not found in file"
      else
        let content2 :=
          if hasOld then replaceFirst content ((patch.oldValue).getD "") patch.newValue
          else patch.newValue
        .ok (fsWrite st.files targetPath (SecurityFilter.sanitizeForSharing content2))
  | .append =>
    let content := (fsLookup st.files targetPath).getD ""
    .ok (fsWrite st.files targetPath
      (SecurityFilter.sanitizeForSharing (content ++ "\n" ++ patch.newValue)))
  | .modifyJson =>
    match fsLookup st.files targetPath with
    | none => .error ("File not found: " ++ targetPath)
    | some content =>
      match jsonParse content, jsonParse patch.newValue with
      | some a, some b => .ok (fsWrite st.files targetPath (jsonStringify2 (deepMerge a b)))
      | _, _ => .error "JSON parse error"

/-- `HotPatcher.apply`: find the pending patch by id, re-validate the resolved
target through the sandbox, dispatch by action; success moves the patch
pending→applied with a timestamp, failure sets `success := false` in place and
leaves it pending. -/
def applyPatch (env : Env) (now pid : String) (st : State) : State × Bool :=
  match splitFirst (fun p => p.id == pid) st.pending with
  | none => (st, false)
  | some (pre, patch, post) =>
    let targetPath := resolveTargetPath env patch.target
    let sb := Sandbox.isPathAllowed env.root env.cwd st.violations targetPath now
    let st1 := { st with violations := sb.2 }
    if !sb.1 then
      ({ st1 with pending := pre ++ { patch with success := some false } :: post }, false)
    else
      match applyAction st1 patch targetPath with
      | .error _ =>
        ({ st1 with pending := pre ++ { patch with success := some false } :: post }, false)
      | .ok files2 =>
        let patch2 := { patch with appliedAt := some now, success := some true }
        ({ st1 with
            files := files2
            pending := pre ++ post
            applied := st1.applied ++ [patch2]
            totalApplied := st1.totalApplied + 1 }, true)

/-- Iteration body of `applyAll` over the snapshot of pending ids. -/
def applyAllGo (env : Env) (now : String) :
    List String → State → Nat → Nat → State × Nat × Nat
  | [], st, a, f => (st, a, f)
  | pid :: rest, st, a, f =>
    let r := applyPatch env now pid st
    if r.2 then applyAllGo env now rest r.1 (a + 1) f
    else applyAllGo env now rest r.1 a (f + 1)

structure ApplyAllResult where
  applied : Nat
  failed : Nat
  deriving Repr, DecidableEq

/-- `HotPatcher.applyAll`: snapshot the pending list, apply each by id,
count successes and failures. -/
def applyAll (env : Env) (now : String) (st : State) : State × ApplyAllResult :=
  let snap := st.pending.map (fun p => p.id)
  let r := applyAllGo env now snap st 0 0
  (r.1, { applied := r.2.1, failed := r.2.2 })

end HotPatcher

/-! ## Self-updater (`self-update` module, unnamed source part)

External git/npm commands are oracles (`Except` values: `.error` models
`execSync` throwing).  `git pull` mutates the working tree outside the model's
file map; the model tracks the files the updater itself touches (the lock
file).  `notify` is an external sink with no bearing on the results. -/

namespace SelfUpdater

structure UpdateResult where
  updated : Bool
  previousVersion : String
  newVersion : String
  changes : List String
  restarted : Bool
  error : Option String
  deriving Repr, DecidableEq

structure UpdateCheck where
  hasUpdates : Bool
  behind : Option Nat
  commits : List String
  deriving Repr, DecidableEq

/-- Paths derived from config (`UPDATE_LOCK`, `PACKAGE_JSON`). -/
structure Env where
  lockPath : String
  packageJsonPath : String
  deriving Repr

/-- Results of the external commands `pullAndRebuild` may run. -/
structure GitOracles where
  pull : Except String String
  diff : Except String String
  install : Except String String
  build : Except String String
  deriving Repr

/-- JavaScript `parseInt(s, 10)` restricted to the non-negative outputs
`git rev-list --count` can produce: a digit prefix, `none` for `NaN`. -/
def parseIntJS (s : String) : Option Nat :=
  let ds := s.data.takeWhile Char.isDigit
  if ds.isEmpty then none
  else some (ds.foldl (fun acc c => acc * 10 + (c.toNat - 48)) 0)

/-- `split("\n").filter(Boolean)` after a trim. -/
def nonEmptyLines (s : String) : List String :=
  (splitOnChar '\n' (strTrim s)).filter (fun l => !(l = ""))

/-- `SelfUpdater.getCurrentVersion`: read and parse `package.json`;
`"unknown"` when the read or parse throws, `"0.0.0"` when the `version` field
is missing or empty. -/
def getCurrentVersion (files : List (String × String)) (packageJsonPath : String) : String :=
  match fsLookup files packageJsonPath with
  | none => "unknown"
  | some content =>
    match jsonParse content with
    | none => "unknown"
    | some j =>
      match jLookup (jObjFields j) "version" with
      | some (.str s) => if s = "" then "0.0.0" else s
      | _ => "0.0.0"

/-- `SelfUpdater.checkForUpdates`: fetch, count commits behind, list their
summaries; any throw is caught and reported as no updates. -/
def checkForUpdates (fetchR revListR logR : Except String String) : UpdateCheck :=
  match fetchR with
  | .error _ => { hasUpdates := false, behind := some 0, commits := [] }
  | .ok _ =>
    match revListR with
    | .error _ => { hasUpdates := false, behind := some 0, commits := [] }
    | .ok out =>
      let behind := parseIntJS (strTrim out)
      if behind = some 0 then
        { hasUpdates := false, behind := some 0, commits := [] }
      else
        match logR with
        | .error _ => { hasUpdates := false, behind := some 0, commits := [] }
        | .ok lg =>
          { hasUpdates := true, behind := behind, commits := nonEmptyLines lg }

/-- `SelfUpdater.pullAndRebuild`.  The lock-held early return happens before
the `try`, so the `finally` (which removes the lock) does not run for it.
The `git stash` step swallows its own errors and has no modelled effect. -/
def pullAndRebuild (env : Env) (files : List (String × String)) (now : String)
    (g : GitOracles) : List (String × String) × UpdateResult :=
  let r0 : UpdateResult :=
    { updated := false
      previousVersion := getCurrentVersion files env.packageJsonPath
      newVersion := ""
      changes := []
      restarted := false
      error := none }
  if fsExists files env.lockPath then
    (files, { r0 with error := some "Update already in progress" })
  else
    let f1 := fsWrite files env.lockPath now
    match g.pull with
    | .error e => (fsRemove f1 env.lockPath, { r0 with error := some e })
    | .ok _ =>
      match g.diff with
      | .error e => (fsRemove f1 env.lockPath, { r0 with error := some e })
      | .ok out =>
        let changedFiles := nonEmptyLines out
        let needsRebuild := changedFiles.any
          (fun f => strStartsWith f "src/" || f = "package.json" || f = "tsconfig.json")
        let rebuildStep : Except String Unit :=
          if needsRebuild then
            match (if changedFiles.contains "package.json" then g.install else .ok "") with
            | .error e => .error e
            | .ok _ =>
              match g.build with
              | .error e => .error e
              | .ok _ => .ok ()
          else .ok ()
        match rebuildStep with
        | .error e => (fsRemove f1 env.lockPath, { r0 with error := some e })
        | .ok _ =>
          (fsRemove f1 env.lockPath,
           { r0 with
              newVersion := getCurrentVersion f1 env.packageJsonPath
              updated := true
              changes := changedFiles })

end SelfUpdater

/-! ## Shared sample fixtures for witnesses -/

/-- A safe, secret-free solution used by several concrete scenarios. -/
def sampleSolution : Solution :=
  { description := "helper module", approach := "add a utility"
    code := "export const x = 1", language := "typescript"
    filename := "helper.ts", estimatedImpact := "better decisions" }

def emptyHistory : AutoImplementer.HistoryStore :=
  { implementations := [], totalImplemented := 0, totalFailed := 0, lastImplementation := none }

/-! ## Claim theorems -/

/-- Helper: `safe` is by construction the emptiness of `issues`. -/
theorem isCodeSafe_safe_eq (code : String) :
    (SecurityFilter.isCodeSafe code).safe = (SecurityFilter.isCodeSafe code).issues.isEmpty := rfl

theorem isCodeSafe_unsafe_of_issues {code : String}
    (h : (SecurityFilter.isCodeSafe code).issues ≠ []) :
    (SecurityFilter.isCodeSafe code).safe = false := by
  rw [isCodeSafe_safe_eq]
  cases hI : (SecurityFilter.isCodeSafe code).issues with
  | nil => exact absurd hI h
  | cons a l => rfl

/-- C1.  For every proposal whose solution code is flagged unsafe by
`isCodeSafe` (non-empty issues list), `implement` returns an `Implementation`
with `success = false` and leaves the whole state — files, backups, commits,
violations, history — untouched. -/
theorem implement_unsafe_no_mutation (env : AutoImplementer.Env)
    (st : AutoImplementer.State) (p : ImprovementProposal)
    (version nowIso nowMs : String) (writeThrows commitFails : Bool)
    (h : (SecurityFilter.isCodeSafe p.solution.code).issues ≠ []) :
    (AutoImplementer.implement env st p version nowIso nowMs writeThrows commitFails).1 = st ∧
    (AutoImplementer.implement env st p version nowIso nowMs writeThrows commitFails).2.success = false ∧
    (AutoImplementer.implement env st p version nowIso nowMs writeThrows commitFails).2.backupPath = none ∧
    (AutoImplementer.implement env st p version nowIso nowMs writeThrows commitFails).2.gitCommit = none := by
  have hsafe := isCodeSafe_unsafe_of_issues h
  simp [AutoImplementer.implement, hsafe]

def c1Env : AutoImplementer.Env :=
  { srcDir := "/app/src", backupDir := "/app/data/backups", root := "/app", cwd := "/app" }

def c1St : AutoImplementer.State :=
  { files := [], commits := [], violations := [], history := emptyHistory }

def c1Prop : ImprovementProposal :=
  { id := "prop-1"
    issue := { area := "memory", description := "cache more", severity := "low" }
    solution := { sampleSolution with code := "return process.env.SECRET" } }

/-- C1 witness: a concrete unsafe proposal, checked end to end. -/
theorem implement_unsafe_no_mutation_witness :
    (SecurityFilter.isCodeSafe c1Prop.solution.code).issues ≠ [] ∧
    (AutoImplementer.implement c1Env c1St c1Prop "1.0.1" "2024-01-01T00:00:00.000Z" "17"
      false false).1 = c1St :=
  ⟨by decide,
   (implement_unsafe_no_mutation c1Env c1St c1Prop "1.0.1" "2024-01-01T00:00:00.000Z" "17"
      false false (by decide)).1⟩

/-- If `from` is not a component-prefix of `to`, `relComps` starts with `..`. -/
theorem relComps_dots :
    ∀ A B : List String, Sandbox.compsPre A B = false →
      ∃ rest, Sandbox.relComps A B = ".." :: rest := by
  intro A
  induction A with
  | nil => intro B h; simp [Sandbox.compsPre] at h
  | cons f fs ih =>
    intro B h
    cases B with
    | nil => exact ⟨fs.map (fun _ => ".."), rfl⟩
    | cons t ts =>
      by_cases hft : f = t
      · have hpre : Sandbox.compsPre fs ts = false := by
          have : (f == t && Sandbox.compsPre fs ts) = false := h
          rw [hft] at this
          simpa using this
        obtain ⟨rest, hrest⟩ := ih ts hpre
        refine ⟨rest, ?_⟩
        simpa [Sandbox.relComps, hft] using hrest
      · exact ⟨fs.map (fun _ => "..") ++ t :: ts, by simp [Sandbox.relComps, hft]⟩

/-- Joining a component list that starts with `..` yields a string starting
with `..`. -/
theorem joinComps_dots_startsWith (rest : List String) :
    strStartsWith (Sandbox.joinComps (".." :: rest)) ".." = true := by
  cases rest with
  | nil => decide
  | cons r rs =>
    show strStartsWith (".." ++ "/" ++ Sandbox.joinComps (r :: rs)) ".." = true
    have hd : (".." ++ "/" ++ Sandbox.joinComps (r :: rs)).data
        = '.' :: '.' :: ("/" ++ Sandbox.joinComps (r :: rs)).data := by
      rw [String.data_append]
      rfl
    simp [strStartsWith, hd, listPre]

/-- C2.  Any path whose resolved, normalized form lies outside the sandbox
root (not in the root's subtree, which covers relative `..` traversal) is
rejected by `isPathAllowed`, and the rejection is recorded as a violation
carrying the offending path, the reason code `outside_sandbox` and the
timestamp. -/
theorem isPathAllowed_outside_rejected (root cwd p now : String)
    (vs : List Sandbox.Violation)
    (h : Sandbox.compsPre (Sandbox.resolveComps cwd root) (Sandbox.resolveComps cwd p) = false) :
    (Sandbox.isPathAllowed root cwd vs p now).1 = false ∧
    (Sandbox.isPathAllowed root cwd vs p now).2
      = vs ++ [⟨p, now, "outside_sandbox"⟩] := by
  obtain ⟨rest, hrest⟩ := relComps_dots _ _ h
  have hsw := joinComps_dots_startsWith rest
  rw [← hrest] at hsw
  simp [Sandbox.isPathAllowed, hsw]

/-- C2 witness: a relative traversal attempt out of root `/app` with the
process in `/app`. -/
theorem isPathAllowed_outside_rejected_witness :
    Sandbox.compsPre (Sandbox.resolveComps "/app" "/app")
      (Sandbox.resolveComps "/app" "../etc/passwd") = false ∧
    (Sandbox.isPathAllowed "/app" "/app" [] "../etc/passwd" "2024-01-01T00:00:00.000Z").1 = false ∧
    (Sandbox.isPathAllowed "/app" "/app" [] "../etc/passwd" "2024-01-01T00:00:00.000Z").2
      = [⟨"../etc/passwd", "2024-01-01T00:00:00.000Z", "outside_sandbox"⟩] := by
  refine ⟨by decide, ?_⟩
  have := isPathAllowed_outside_rejected "/app" "/app" "../etc/passwd"
    "2024-01-01T00:00:00.000Z" [] (by decide)
  simpa using this

/-! ### C3: implement-then-rollback does not restore the target

`rollback` recomputes the target path from a proposal stub whose `issue.area`
is the empty string, so the backup is restored under `improvements/` instead
of the directory the area-to-directory table chose at implement time. -/

def c3Env : AutoImplementer.Env :=
  { srcDir := "/app/src", backupDir := "/app/data/backups", root := "/app", cwd := "/w" }

def c3Prop : ImprovementProposal :=
  { id := "prop-3"
    issue := { area := "decision_making", description := "improve decisions", severity := "low" }
    solution := sampleSolution }

def c3St : AutoImplementer.State :=
  { files := [("/app/src/agent/helper.ts", "OLD")], commits := [], violations := []
    history := emptyHistory }

def c3Run1 : AutoImplementer.State × AutoImplementer.Implementation :=
  AutoImplementer.implement c3Env c3St c3Prop "1.0.1" "2024-01-01T00:00:00.000Z"
    "1700000000000" false false

def c3Run2 : AutoImplementer.State × Bool :=
  AutoImplementer.rollback c3Env c3Run1.1 c3Run1.2.id

/-- C3.  Failing input for the rollback claim: the proposal's area is
`decision_making`, so `implement` writes (and backs up) `src/agent/helper.ts`;
`rollback` reports success but restores the backup to
`src/improvements/helper.ts`, leaving the implemented target unchanged — the
pre-implementation content is not restored at the target. -/
theorem rollback_restores_to_wrong_directory :
    c3Run1.2.success = true ∧
    c3Run1.2.backupPath.isSome = true ∧
    c3Run2.2 = true ∧
    fsLookup c3Run2.1.files "/app/src/agent/helper.ts" ≠ some "OLD" ∧
    fsLookup c3Run2.1.files "/app/src/improvements/helper.ts" = some "OLD" := by
  decide

/-! ### C4: version strings repeat

`createVersion` never writes `store.currentVersion` back, so consecutive calls
bump from the same base and collide. -/

def c4Prop : ImprovementProposal :=
  { id := "prop-4"
    issue := { area := "memory", description := "tweak recall logic", severity := "low" }
    solution := sampleSolution }

def c4Run1 : VersionManager.VersionStore × VersionManager.Version :=
  VersionManager.createVersion "/app/data/versions" VersionManager.initialStore c4Prop
    "2024-01-01T00:00:00.000Z" "1700000000000"

def c4Run2 : VersionManager.VersionStore × VersionManager.Version :=
  VersionManager.createVersion "/app/data/versions" c4Run1.1 c4Prop
    "2024-01-02T00:00:00.000Z" "1700000100000"

/-- C4.  Failing input for the version-monotonicity claim: two consecutive
`createVersion` calls on a fresh store (both derived type `improvement`)
return the same version string `1.0.1`, because `currentVersion` is still
`1.0.0` after the first call — the sequence is neither pairwise distinct nor
strictly increasing. -/
theorem createVersion_repeats_version_string :
    c4Run1.2.version = "1.0.1" ∧
    c4Run2.2.version = "1.0.1" ∧
    c4Run1.1.currentVersion = "1.0.0" := by
  decide

/-! ### C5: the bump rule for a single call -/

/-- C5.  From a well-formed numeric `M.m.p` current version, one
`createVersion` call produces `M.(m+1).0` when the derived type is `feature`,
and `M.m.(p+1)` when it is `improvement`, `optimization` or `bugfix`. -/
theorem getNextVersion_bump_rule (versionDir : String)
    (store : VersionManager.VersionStore) (p : ImprovementProposal)
    (M m pt : Nat) (nowIso nowMs : String)
    (h : (splitOnChar '.' store.currentVersion).map VersionManager.parseNumJS
        = [some M, some m, some pt]) :
    (VersionManager.determineType p = VersionManager.VType.feature →
      (VersionManager.createVersion versionDir store p nowIso nowMs).2.version
        = toString M ++ "." ++ toString (m + 1) ++ ".0") ∧
    (VersionManager.determineType p ≠ VersionManager.VType.feature →
      (VersionManager.createVersion versionDir store p nowIso nowMs).2.version
        = toString M ++ "." ++ toString m ++ "." ++ toString (pt + 1)) := by
  have hv : (VersionManager.createVersion versionDir store p nowIso nowMs).2.version
      = VersionManager.getNextVersion store.currentVersion (VersionManager.determineType p) := rfl
  constructor
  · intro hf
    rw [hv, hf]
    unfold VersionManager.getNextVersion
    rw [h]
    simp [VersionManager.renderNum, VersionManager.optSucc]
  · intro hnf
    rw [hv]
    cases ht : VersionManager.determineType p with
    | feature => exact absurd ht hnf
    | improvement =>
      unfold VersionManager.getNextVersion
      rw [h]
      simp [VersionManager.renderNum, VersionManager.optSucc]
    | optimization =>
      unfold VersionManager.getNextVersion
      rw [h]
      simp [VersionManager.renderNum, VersionManager.optSucc]
    | bugfix =>
      unfold VersionManager.getNextVersion
      rw [h]
      simp [VersionManager.renderNum, VersionManager.optSucc]

def c5Prop : ImprovementProposal :=
  { id := "prop-5"
    issue := { area := "memory", description := "new recall mode", severity := "high" }
    solution := sampleSolution }

/-- C5 witness: severity `high` derives `feature`; from `1.0.0` the new
version is `1.1.0`. -/
theorem getNextVersion_bump_rule_witness :
    (splitOnChar '.' VersionManager.initialStore.currentVersion).map VersionManager.parseNumJS
      = [some 1, some 0, some 0] ∧
    VersionManager.determineType c5Prop = VersionManager.VType.feature ∧
    (VersionManager.createVersion "/app/data/versions" VersionManager.initialStore c5Prop
      "2024-01-01T00:00:00.000Z" "17").2.version = "1.1.0" :=
  ⟨by decide, by decide,
   ((getNextVersion_bump_rule "/app/data/versions" VersionManager.initialStore c5Prop
      1 0 0 "2024-01-01T00:00:00.000Z" "17" (by decide)).1 (by decide)).trans (by decide)⟩

/-! ### C6: a held lock aborts `pullAndRebuild` with zero side effects -/

/-- C6.  If the update lock file already exists, `pullAndRebuild` returns
`updated = false` with the error set, leaves the file state untouched (so the
pre-existing lock file is still there) — for every possible outcome of the
external git/npm commands, which are never run. -/
theorem pullAndRebuild_lock_held_no_mutation (env : SelfUpdater.Env)
    (files : List (String × String)) (now : String) (g : SelfUpdater.GitOracles)
    (h : fsExists files env.lockPath = true) :
    (SelfUpdater.pullAndRebuild env files now g).1 = files ∧
    (SelfUpdater.pullAndRebuild env files now g).2.updated = false ∧
    (SelfUpdater.pullAndRebuild env files now g).2.error
      = some "Update already in progress" ∧
    fsExists (SelfUpdater.pullAndRebuild env files now g).1 env.lockPath = true := by
  refine ⟨?_, ?_, ?_, ?_⟩ <;> simp [SelfUpdater.pullAndRebuild, h]

def c6Env : SelfUpdater.Env :=
  { lockPath := "/app/data/update.lock", packageJsonPath := "/app/package.json" }

def c6Files : List (String × String) :=
  [("/app/data/update.lock", "2024-01-01T00:00:00.000Z")]

def c6Oracles : SelfUpdater.GitOracles :=
  { pull := .ok "Updating abc..def", diff := .ok "src/daemon.ts\n"
    install := .ok "", build := .ok "" }

/-- C6 witness: a concrete held lock, with oracles that would succeed if they
were consulted. -/
theorem pullAndRebuild_lock_held_no_mutation_witness :
    fsExists c6Files c6Env.lockPath = true ∧
    (SelfUpdater.pullAndRebuild c6Env c6Files "2024-01-02T00:00:00.000Z" c6Oracles).1
      = c6Files ∧
    (SelfUpdater.pullAndRebuild c6Env c6Files "2024-01-02T00:00:00.000Z" c6Oracles).2.updated
      = false :=
  ⟨by decide,
   (pullAndRebuild_lock_held_no_mutation c6Env c6Files "2024-01-02T00:00:00.000Z" c6Oracles
      (by decide)).1,
   (pullAndRebuild_lock_held_no_mutation c6Env c6Files "2024-01-02T00:00:00.000Z" c6Oracles
      (by decide)).2.1⟩

/-! ### C10: `checkForUpdates` swallows tool failures -/

/-- Does an oracle model a thrown `execSync`? -/
def exThrew (e : Except String String) : Bool :=
  match e with
  | .error _ => true
  | .ok _ => false

/-- C10.  When any of the underlying git operations (fetch, rev-list, log)
fails, `checkForUpdates` returns `{hasUpdates := false, behind := 0,
commits := []}` — the same value it returns when the local tree is up to
date. -/
theorem checkForUpdates_failure_reports_up_to_date
    (fetchR revListR logR : Except String String)
    (h : exThrew fetchR = true ∨ exThrew revListR = true ∨ exThrew logR = true) :
    SelfUpdater.checkForUpdates fetchR revListR logR
      = { hasUpdates := false, behind := some 0, commits := [] } := by
  unfold SelfUpdater.checkForUpdates
  cases fetchR with
  | error e => rfl
  | ok v =>
    cases revListR with
    | error e => rfl
    | ok out =>
      cases logR with
      | error e =>
        by_cases hb : SelfUpdater.parseIntJS (strTrim out) = some 0
        · simp [hb]
        · simp [hb]
      | ok lg => simp [exThrew] at h

/-- C10 witness: a failed fetch. -/
theorem checkForUpdates_failure_reports_up_to_date_witness :
    exThrew (Except.error "fatal: unable to access remote") = true ∧
    SelfUpdater.checkForUpdates (Except.error "fatal: unable to access remote")
      (Except.ok "3") (Except.ok "abc fix stuff")
      = { hasUpdates := false, behind := some 0, commits := [] } :=
  ⟨by decide,
   checkForUpdates_failure_reports_up_to_date (Except.error "fatal: unable to access remote")
     (Except.ok "3") (Except.ok "abc fix stuff") (Or.inl (by decide))⟩

/-! ### C7: a second `applyAll` retries the patches the first call failed -/

def c7Env : HotPatcher.Env :=
  { dataDir := "/r/data", projectRoot := "/r", root := "/r", cwd := "/c" }

def c7PatchReplace : HotPatcher.Patch :=
  { id := "patch-1", type := "data", description := "swap X for Y", target := "data/f.txt"
    action := .replace, oldValue := some "X", newValue := "Y"
    appliedAt := none, success := none }

def c7PatchAppend : HotPatcher.Patch :=
  { id := "patch-2", type := "data", description := "append X", target := "data/f.txt"
    action := .append, oldValue := none, newValue := "X"
    appliedAt := none, success := none }

def c7St : HotPatcher.State :=
  { files := [("/r/data/f.txt", "A")], pending := [c7PatchReplace, c7PatchAppend]
    applied := [], totalApplied := 0, violations := [] }

def c7Run1 : HotPatcher.State × HotPatcher.ApplyAllResult :=
  HotPatcher.applyAll c7Env "2024-01-01T00:00:00.000Z" c7St

def c7Run2 : HotPatcher.State × HotPatcher.ApplyAllResult :=
  HotPatcher.applyAll c7Env "2024-01-01T00:05:00.000Z" c7Run1.1

/-- C7 counterexample.  With two pending patches — a `replace` whose old value
`X` is not yet in the file, then an `append` that adds `X` — the first
`applyAll` applies one and fails one; the failed patch stays pending, and the
second `applyAll` (with no patches created in between) retries it against the
appended file and now applies it: the second call's applied count is 1, not
0. -/
theorem applyAll_second_call_reapplies_failed_patch :
    c7Run1.2 = { applied := 1, failed := 1 } ∧
    c7Run2.2.applied ≠ 0 := by
  decide

/-- `splitFirst` returning `(pre, x, post)` decomposes the list. -/
theorem splitFirst_append (p : HotPatcher.Patch → Bool) :
    ∀ (l pre : List HotPatcher.Patch) (x : HotPatcher.Patch) (post : List HotPatcher.Patch),
      HotPatcher.splitFirst p l = some (pre, x, post) → l = pre ++ x :: post := by
  intro l
  induction l with
  | nil => intro pre x post h; simp [HotPatcher.splitFirst] at h
  | cons a t ih =>
    intro pre x post h
    unfold HotPatcher.splitFirst at h
    by_cases hp : p a
    · rw [if_pos hp] at h
      simp only [Option.some.injEq, Prod.mk.injEq] at h
      obtain ⟨h1, h2, h3⟩ := h
      subst h1; subst h2; subst h3
      rfl
    · rw [if_neg hp] at h
      cases hs : HotPatcher.splitFirst p t with
      | none => rw [hs] at h; simp at h
      | some r =>
        obtain ⟨r1, r2, r3⟩ := r
        rw [hs] at h
        simp only [Option.map, Option.some.injEq, Prod.mk.injEq] at h
        obtain ⟨h1, h2, h3⟩ := h
        subst h1; subst h2; subst h3
        simpa using congrArg (fun l => a :: l) (ih r1 r2 r3 hs)

/-- A successful `applyPatch` removes exactly one pending entry; a failed one
keeps the pending count (the failed patch stays pending). -/
theorem applyPatch_length (env : HotPatcher.Env) (now pid : String)
    (st : HotPatcher.State) :
    (HotPatcher.applyPatch env now pid st).1.pending.length
      + (HotPatcher.applyPatch env now pid st).2.toNat = st.pending.length := by
  unfold HotPatcher.applyPatch
  cases hs : HotPatcher.splitFirst (fun p => p.id == pid) st.pending with
  | none => simp
  | some r =>
    obtain ⟨pre, patch, post⟩ := r
    have hdec := splitFirst_append _ _ _ _ _ hs
    simp only [hdec]
    split
    · simp
    · split
      · simp
      · simp
        omega

/-- One unfolding step of `applyAllGo`. -/
theorem applyAllGo_cons (env : HotPatcher.Env) (now pid : String)
    (rest : List String) (st : HotPatcher.State) (a f : Nat) :
    HotPatcher.applyAllGo env now (pid :: rest) st a f
      = (if (HotPatcher.applyPatch env now pid st).2 = true
         then HotPatcher.applyAllGo env now rest (HotPatcher.applyPatch env now pid st).1 (a + 1) f
         else HotPatcher.applyAllGo env now rest (HotPatcher.applyPatch env now pid st).1 a (f + 1)) :=
  rfl

/-- The failure counter of `applyAllGo` never decreases. -/
theorem applyAllGo_failed_mono (env : HotPatcher.Env) (now : String) :
    ∀ (pids : List String) (st : HotPatcher.State) (a f : Nat),
      f ≤ (HotPatcher.applyAllGo env now pids st a f).2.2 := by
  intro pids
  induction pids with
  | nil => intro st a f; simp [HotPatcher.applyAllGo]
  | cons pid rest ih =>
    intro st a f
    rw [applyAllGo_cons]
    by_cases hb : (HotPatcher.applyPatch env now pid st).2 = true
    · rw [if_pos hb]
      exact ih _ _ _
    · rw [if_neg hb]
      exact le_trans (Nat.le_succ f) (ih _ _ _)

/-- If `applyAllGo` reports no failures, every processed id removed one
pending patch. -/
theorem applyAllGo_failed_zero (env : HotPatcher.Env) (now : String) :
    ∀ (pids : List String) (st : HotPatcher.State) (a f : Nat),
      (HotPatcher.applyAllGo env now pids st a f).2.2 = f →
      (HotPatcher.applyAllGo env now pids st a f).1.pending.length + pids.length
        = st.pending.length := by
  intro pids
  induction pids with
  | nil => intro st a f _; simp [HotPatcher.applyAllGo]
  | cons pid rest ih =>
    intro st a f h
    have hp := applyPatch_length env now pid st
    rw [applyAllGo_cons] at h ⊢
    by_cases hb : (HotPatcher.applyPatch env now pid st).2 = true
    · rw [if_pos hb] at h ⊢
      rw [hb] at hp
      have hrec := ih (HotPatcher.applyPatch env now pid st).1 (a + 1) f h
      simp only [Bool.toNat_true] at hp
      simp only [List.length_cons]
      omega
    · rw [if_neg hb] at h
      have hmono := applyAllGo_failed_mono env now rest
        (HotPatcher.applyPatch env now pid st).1 a (f + 1)
      rw [h] at hmono
      omega

/-- C7 amended.  If the first `applyAll` reports zero failures, its pending
list is empty afterwards, so a second `applyAll` with no patches created in
between applies zero patches.  (Without the zero-failure hypothesis the claim
is false: failed patches stay pending and are retried, see the
counterexample.) -/
theorem applyAll_twice_zero_when_first_all_succeed (env : HotPatcher.Env)
    (now1 now2 : String) (st : HotPatcher.State)
    (h : (HotPatcher.applyAll env now1 st).2.failed = 0) :
    (HotPatcher.applyAll env now2 (HotPatcher.applyAll env now1 st).1).2.applied = 0 := by
  have h2 : (HotPatcher.applyAllGo env now1 (st.pending.map (fun p => p.id)) st 0 0).2.2
      = 0 := h
  have hz := applyAllGo_failed_zero env now1 (st.pending.map (fun p => p.id)) st 0 0 h2
  rw [List.length_map] at hz
  have hlen : (HotPatcher.applyAll env now1 st).1.pending.length = 0 := by
    have heq : (HotPatcher.applyAll env now1 st).1
        = (HotPatcher.applyAllGo env now1 (st.pending.map (fun p => p.id)) st 0 0).1 := rfl
    rw [heq]
    omega
  have hnil : (HotPatcher.applyAll env now1 st).1.pending = [] :=
    List.length_eq_zero.mp hlen
  show (HotPatcher.applyAllGo env now2
      ((HotPatcher.applyAll env now1 st).1.pending.map (fun p => p.id))
      (HotPatcher.applyAll env now1 st).1 0 0).2.1 = 0
  rw [hnil]
  rfl

def c7wPatch : HotPatcher.Patch :=
  { id := "patch-9", type := "data", description := "append a line", target := "data/notes.txt"
    action := .append, oldValue := none, newValue := "hello"
    appliedAt := none, success := none }

def c7wSt : HotPatcher.State :=
  { files := [("/r/data/notes.txt", "first")], pending := [c7wPatch]
    applied := [], totalApplied := 0, violations := [] }

/-- C7 amended witness: one append patch that succeeds; the first call fails
none, the second call applies zero. -/
theorem applyAll_twice_zero_when_first_all_succeed_witness :
    (HotPatcher.applyAll c7Env "2024-02-01T00:00:00.000Z" c7wSt).2.failed = 0 ∧
    (HotPatcher.applyAll c7Env "2024-02-01T00:05:00.000Z"
      (HotPatcher.applyAll c7Env "2024-02-01T00:00:00.000Z" c7wSt).1).2.applied = 0 :=
  ⟨by decide,
   applyAll_twice_zero_when_first_all_succeed c7Env "2024-02-01T00:00:00.000Z"
     "2024-02-01T00:05:00.000Z" c7wSt (by decide)⟩

/-! ### C8: sanitizeCode is not idempotent -/

/-- A declaration binding a secret-sounding name to a 20-character literal. -/
def c8Input : String := "const key1 = \"AAAAAAAAAAAAAAAAAAAA\""

/-- C8 counterexample.  The declaration rewrite in `sanitizeCode` turns the
input into `const key1 = process.env.KEY1 // [REDACTED]`; a second pass then
redacts the `process.env.KEY` reference that the first pass itself introduced,
so `sanitizeCode (sanitizeCode x) ≠ sanitizeCode x` at this input. -/
theorem sanitizeCode_not_idempotent_on_decl :
    SecurityFilter.sanitizeCode (SecurityFilter.sanitizeCode c8Input)
      ≠ SecurityFilter.sanitizeCode c8Input := by
  decide

/-- C8 amended.  `sanitizeCode` is idempotent on every input it leaves
unchanged (its fixed points); it is not idempotent in general, because the
declaration rewrite introduces a `process.env` reference that a second pass
redacts. -/
theorem sanitizeCode_idempotent_on_fixed_points (x : String)
    (h : SecurityFilter.sanitizeCode x = x) :
    SecurityFilter.sanitizeCode (SecurityFilter.sanitizeCode x)
      = SecurityFilter.sanitizeCode x := by
  rw [h]
  exact h

/-- C8 amended witness: `hello` is untouched by `sanitizeCode`. -/
theorem sanitizeCode_idempotent_on_fixed_points_witness :
    SecurityFilter.sanitizeCode "hello" = "hello" ∧
    SecurityFilter.sanitizeCode (SecurityFilter.sanitizeCode "hello")
      = SecurityFilter.sanitizeCode "hello" :=
  ⟨by decide, sanitizeCode_idempotent_on_fixed_points "hello" (by decide)⟩

/-! ### C9: what reaches the implementation history -/

/-- C9.  The security-rejected and sandbox-rejected paths of `implement`
return before the history epilogue: the history (records and running totals)
is exactly unchanged.  Every attempt that passes both checks — whether the
write phase throws or not — is appended to the history. -/
theorem implement_history_recording (env : AutoImplementer.Env)
    (st : AutoImplementer.State) (p : ImprovementProposal)
    (version nowIso nowMs : String) (writeThrows commitFails : Bool) :
    ((SecurityFilter.isCodeSafe p.solution.code).safe = false →
      (AutoImplementer.implement env st p version nowIso nowMs writeThrows commitFails).1.history
        = st.history) ∧
    ((SecurityFilter.isCodeSafe p.solution.code).safe = true →
      (Sandbox.isPathAllowed env.root env.cwd st.violations
        (env.srcDir ++ "/" ++ AutoImplementer.determineTargetPath p) nowIso).1 = false →
      (AutoImplementer.implement env st p version nowIso nowMs writeThrows commitFails).1.history
        = st.history) ∧
    ((SecurityFilter.isCodeSafe p.solution.code).safe = true →
      (Sandbox.isPathAllowed env.root env.cwd st.violations
        (env.srcDir ++ "/" ++ AutoImplementer.determineTargetPath p) nowIso).1 = true →
      (AutoImplementer.implement env st p version nowIso nowMs writeThrows
          commitFails).1.history.implementations
        = st.history.implementations
          ++ [(AutoImplementer.implement env st p version nowIso nowMs writeThrows
                commitFails).2]) := by
  refine ⟨?_, ?_, ?_⟩
  · intro h1
    simp [AutoImplementer.implement, h1]
  · intro h1 h2
    simp [AutoImplementer.implement, h1, h2]
  · intro h1 h2
    simp only [AutoImplementer.implement, h1, h2, Bool.not_true, Bool.false_eq_true,
      if_false]
    split <;> split <;> simp [AutoImplementer.gitCommit] <;> split <;> simp

/-- C9 witness: a safe, in-sandbox proposal is recorded in the history. -/
theorem implement_history_recording_witness :
    (SecurityFilter.isCodeSafe c3Prop.solution.code).safe = true ∧
    (Sandbox.isPathAllowed c3Env.root c3Env.cwd c3St.violations
      (c3Env.srcDir ++ "/" ++ AutoImplementer.determineTargetPath c3Prop)
      "2024-03-01T00:00:00.000Z").1 = true ∧
    (AutoImplementer.implement c3Env c3St c3Prop "1.0.2" "2024-03-01T00:00:00.000Z" "18"
        false false).1.history.implementations
      = c3St.history.implementations
        ++ [(AutoImplementer.implement c3Env c3St c3Prop "1.0.2" "2024-03-01T00:00:00.000Z"
              "18" false false).2] :=
  ⟨by decide, by decide,
   (implement_history_recording c3Env c3St c3Prop "1.0.2" "2024-03-01T00:00:00.000Z" "18"
      false false).2.2 (by decide) (by decide)⟩
